import Mathlib

/-!
# Order-Service: cart and order lifecycle

A shallow embedding of `src/database/repository/shopping-repository.js`,
`src/services/shopping-service.js` and the cart route of `src/api/shopping.js`.

The two Sequelize tables (carts, orders) are lists of rows held in a `Database`
value that every operation receives and returns.  A rejected promise is an
`Except.error` carrying the message of the thrown `Error`.  Prices are exact
rationals and quantities exact integers.
-/

namespace OrderService

/-! ## Data model -/

/-- One element of the JSONB `items` array of a cart row. -/
structure CartItem where
  productId : String
  name : String
  price : ℚ
  quantity : Int
  image : Option String
deriving DecidableEq

/-- A row of the `carts` table (`src/database/models/Cart.js`): the owning
customer and the `items` array.  The column defaults to `[]` and every write
of the repository stores an array, so `items` is a list. -/
structure Cart where
  customerId : String
  items : List CartItem
deriving DecidableEq

/-- Modelled from the spec: the Order model file is not among the sources.  The
fields are those the spec lists for an Order and the repository passes to
`Order.create`; `createdAt` is the timestamp the `created_at` ordering reads. -/
structure Order where
  orderId : String
  customerId : String
  amount : ℚ
  status : String
  items : List CartItem
  createdAt : Nat
deriving DecidableEq

/-- The persistent state: the rows of the two tables, oldest row first. -/
structure Database where
  carts : List Cart
  orders : List Order
deriving DecidableEq

/-- The argument object the service builds for `AddCartItem`. -/
structure CartItemInput where
  customerId : String
  productId : String
  name : String
  price : ℚ
  quantity : Int
  image : Option String
deriving DecidableEq

/-- The `product` object handed to `ShoppingService.AddToCart`.  An `id` that is
the empty string stands for every falsy id. -/
structure Product where
  id : String
  name : String
  price : ℚ
  image : Option String
  img : Option String
deriving DecidableEq

/-- The `{ items, total }` object the cart operations of the service return. -/
structure CartSummary where
  items : List CartItem
  total : ℚ
deriving DecidableEq

deriving instance DecidableEq for Except

/-- Modelled from the spec: `FormatData` lives in `utils`, which is not among
the sources.  Every route reads the service result back as `{ data }` and the
spec gives that payload as the output of the operation, so the payload is
wrapped unchanged. -/
structure Formatted (α : Type) where
  data : α
deriving DecidableEq

/-- Modelled from the spec: `FormatData` of `utils` (not among the sources)
wraps the payload as `{ data }`. -/
def FormatData {α : Type} (data : α) : Formatted α := ⟨data⟩

/-! ## JavaScript values and helpers -/

/-- An integer that a JavaScript number holds exactly and prints in plain
decimal notation: magnitude below `2 ^ 53`. -/
structure SafeInteger where
  value : Int
  safe : value.natAbs < 2 ^ 53
deriving DecidableEq

/-- A value read from a JSON request body where a number is expected:
`undefined` (also standing for `null`), a number that is a safe integer, any
other non-zero number, given by the text `String(number)` prints for it (such
as `0.5`, `1e-7` or `1e+21`), or a string. -/
inductive JsValue where
  | undefined
  | num (n : SafeInteger)
  | real (printed : String)
  | str (s : String)
deriving DecidableEq

/-- JavaScript truthiness: `undefined`, `0` and `""` are falsy. -/
def JsValue.truthy : JsValue → Bool
  | .undefined => false
  | .num n => n.value != 0
  | .real _ => true
  | .str s => s != ""

/-- The characters `parseInt` skips at the start of a string: the white space
and line terminator code points of the language. -/
def isStrWhiteSpace (c : Char) : Bool :=
  let n := c.toNat
  n = 0x09 || n = 0x0A || n = 0x0B || n = 0x0C || n = 0x0D || n = 0x20 || n = 0xA0 ||
    n = 0x1680 || (0x2000 ≤ n && n ≤ 0x200A) || n = 0x2028 || n = 0x2029 || n = 0x202F ||
    n = 0x205F || n = 0x3000 || n = 0xFEFF

/-- Value of a character as a digit of the given radix, if it is one. -/
def digitValue (radix : Nat) (c : Char) : Option Nat :=
  let v : Option Nat :=
    if '0' ≤ c ∧ c ≤ '9' then some (c.toNat - 48)
    else if 'a' ≤ c ∧ c ≤ 'z' then some (c.toNat - 87)
    else if 'A' ≤ c ∧ c ≤ 'Z' then some (c.toNat - 55)
    else none
  v.bind (fun d => if d < radix then some d else none)

/-- The integer a JavaScript number holds for the mathematical integer `m`:
`m` itself below `2 ^ 53`, beyond that the nearest integer with a 53-bit
mantissa, ties to the even mantissa.  (Past 20 digits the language leaves the
approximation to the implementation, and past `2 ^ 1024` the number is
`Infinity`; the nearest-mantissa value stands for both.) -/
def roundToDouble (m : Nat) : Nat :=
  if m < 2 ^ 53 then m
  else
    let e := Nat.log2 m - 52
    let mantissa := m / 2 ^ e
    let rest := m % 2 ^ e
    let half := 2 ^ (e - 1)
    if rest > half ∨ (rest = half ∧ mantissa % 2 = 1) then (mantissa + 1) * 2 ^ e
    else mantissa * 2 ^ e

/-- `parseInt` on a string without a radix argument: leading white space is
skipped, a sign is read, a `0x`/`0X` prefix selects radix 16, and the longest
run of digits is converted; `none` is `NaN`. -/
def parseIntString (s : String) : Option Int :=
  let cs := s.toList.dropWhile isStrWhiteSpace
  let signed : Bool × List Char :=
    match cs with
    | '-' :: r => (true, r)
    | '+' :: r => (false, r)
    | _ => (false, cs)
  let based : Nat × List Char :=
    match signed.2 with
    | '0' :: 'x' :: r => (16, r)
    | '0' :: 'X' :: r => (16, r)
    | _ => (10, signed.2)
  let digits := (based.2.map (digitValue based.1)).takeWhile Option.isSome
  if digits.length = 0 then none
  else
    let magnitude : Nat :=
      roundToDouble (digits.foldl (fun acc d => acc * based.1 + d.getD 0) 0)
    some (if signed.1 then -(magnitude : Int) else (magnitude : Int))

/-- `parseInt(v)`, which reads the text `String(v)`; `none` is `NaN`. -/
def parseInt : JsValue → Option Int
  | .undefined => none
  | .num n => some n.value
  | .real printed => parseIntString printed
  | .str s => parseIntString s

/-- The expression `a || b` on optional strings, as in
`product.image || product.img`: `a` when it is a non-empty string, else `b`. -/
def firstTruthy (a b : Option String) : Option String :=
  match a with
  | some s => if s = "" then b else some s
  | none => b

/-- The expression `err.message || fallback` of the service's catch blocks. -/
def orMessage (message fallback : String) : String :=
  if message = "" then fallback else message

/-- `Array.prototype.findIndex`; `none` is the result `-1`. -/
def findIndex {α : Type} (p : α → Bool) : List α → Option Nat
  | [] => none
  | x :: xs => if p x then some 0 else (findIndex p xs).map (· + 1)

/-- The assignment `items[index].quantity = f(items[index].quantity)`. -/
def modifyQuantityAt (f : Int → Int) : Nat → List CartItem → List CartItem
  | _, [] => []
  | 0, x :: xs => { x with quantity := f x.quantity } :: xs
  | n + 1, x :: xs => x :: modifyQuantityAt f n xs

/-- The reduction `items.reduce((sum, item) => sum + item.price * item.quantity, 0)`. -/
def cartTotal (items : List CartItem) : ℚ :=
  items.foldl (fun sum item => sum + item.price * (item.quantity : ℚ)) 0

/-! ## The tables -/

/-- `Cart.findOne({ where: { customerId } })`: the first matching row. -/
def Cart.findOne (carts : List Cart) (customerId : String) : Option Cart :=
  carts.find? (fun c => c.customerId == customerId)

/-- `cart.update({ items })` with a fresh array, on the instance `Cart.findOne`
returned for `customerId`: that row, the first matching one, gets the new
items. -/
def Cart.update (customerId : String) (items : List CartItem) : List Cart → List Cart
  | [] => []
  | c :: cs =>
    if c.customerId == customerId then { c with items := items } :: cs
    else c :: Cart.update customerId items cs

/-- `cart.update({ items })` when `items` is the very array the instance
holds, already changed in place: Sequelize compares the value it is given with
the value the instance holds, finds no change and sends no UPDATE, so the
table is as it was. -/
def Cart.updateWithHeldArray (_customerId : String) (_items : List CartItem)
    (carts : List Cart) : List Cart :=
  carts

/-- `Cart.destroy({ where: { customerId } })`: every matching row is deleted. -/
def Cart.destroy (carts : List Cart) (customerId : String) : List Cart :=
  carts.filter (fun c => c.customerId != customerId)

/-- `Order.findAll({ where: { customerId }, order: [['created_at', 'DESC']] })`. -/
def Order.findAll (orders : List Order) (customerId : String) : List Order :=
  (orders.filter (fun o => o.customerId == customerId)).insertionSort
    (fun a b => b.createdAt ≤ a.createdAt)

/-! ## `ShoppingRepository` -/

/-- The value bound to the `cart` parameter of `ShoppingRepository.CreateOrder`:
`null`, an object with an `items` array, or a bare array, on which the
property `items` is `undefined`. -/
inductive CartParam where
  | null
  | object (items : List CartItem)
  | array (elems : List CartItem)
deriving DecidableEq

/-- `Orders(customerId)`: the customer's orders, newest first. -/
def ShoppingRepository.Orders (db : Database) (customerId : String) : List Order :=
  Order.findAll db.orders customerId

/-- `Cart(customerId)`: `cart || { items: [] }`; only `items` is read by the
callers, so the items of the row, or of the literal, are returned. -/
def ShoppingRepository.Cart (db : Database) (customerId : String) : List CartItem :=
  match OrderService.Cart.findOne db.carts customerId with
  | some cart => cart.items
  | none => []

/-- `AddCartItem(cartItem)`: creates the row with the single line; on an
existing row it appends the line to, or adds the quantity to the first line
with the same product id in, the array `cart.items` itself and passes that
array to `cart.update`.  The returned instance carries the changed array. -/
def ShoppingRepository.AddCartItem (db : Database) (cartItem : CartItemInput) :
    Database × OrderService.Cart :=
  let line : CartItem :=
    { productId := cartItem.productId, name := cartItem.name, price := cartItem.price,
      quantity := cartItem.quantity, image := cartItem.image }
  match OrderService.Cart.findOne db.carts cartItem.customerId with
  | none =>
    let cart : OrderService.Cart := { customerId := cartItem.customerId, items := [line] }
    ({ db with carts := db.carts ++ [cart] }, cart)
  | some cart =>
    let existingItems :=
      match findIndex (fun item => item.productId == cartItem.productId) cart.items with
      | none => cart.items ++ [line]
      | some existingItemIndex =>
        modifyQuantityAt (fun q => q + cartItem.quantity) existingItemIndex cart.items
    ({ db with
        carts := OrderService.Cart.updateWithHeldArray cartItem.customerId existingItems
          db.carts },
      { cart with items := existingItems })

/-- `RemoveCartItem(customerId, productId)`: filters the lines of an existing
row and returns the row; returns `null` (`none`) when there is no row. -/
def ShoppingRepository.RemoveCartItem (db : Database) (customerId productId : String) :
    Database × Option OrderService.Cart :=
  match OrderService.Cart.findOne db.carts customerId with
  | some cart =>
    let items := cart.items.filter (fun item => item.productId != productId)
    ({ db with carts := OrderService.Cart.update customerId items db.carts },
      some { cart with items := items })
  | none => (db, none)

/-- `UpdateCartItemQuantity(customerId, productId, quantity)`: the quantity is
assigned on the line inside `cart.items` itself, and that array is passed to
`cart.update`.  The returned instance carries the changed array. -/
def ShoppingRepository.UpdateCartItemQuantity (db : Database) (customerId productId : String)
    (quantity : Int) : Database × Except String OrderService.Cart :=
  match OrderService.Cart.findOne db.carts customerId with
  | none => (db, .error "Cart not found")
  | some cart =>
    match findIndex (fun i => i.productId == productId) cart.items with
    | none => (db, .error "Item not found in cart")
    | some existingItemIndex =>
      let items := modifyQuantityAt (fun _ => quantity) existingItemIndex cart.items
      ({ db with carts := OrderService.Cart.updateWithHeldArray customerId items db.carts },
        .ok { cart with items := items })

/-- `ClearCart(customerId)`: empties an existing row; always returns `{ items: [] }`. -/
def ShoppingRepository.ClearCart (db : Database) (customerId : String) :
    Database × List CartItem :=
  match OrderService.Cart.findOne db.carts customerId with
  | some _ => ({ db with carts := OrderService.Cart.update customerId [] db.carts }, [])
  | none => (db, [])

/-- `CreateOrder(customerId, cart)`.  The guard rejects `null`, a value whose
`items` property is not an array (a bare array has no such property) and an
empty `items`; `uuid` is the value of `uuidv4()` and `now` the creation time. -/
def ShoppingRepository.CreateOrder (uuid : String) (now : Nat) (db : Database)
    (customerId : String) (cart : CartParam) : Database × Except String Order :=
  match cart with
  | .null => (db, .error "Cart is empty")
  | .array _ => (db, .error "Cart is empty")
  | .object items =>
    if items.length = 0 then (db, .error "Cart is empty")
    else
      let total := items.foldl (fun sum item => sum + item.price * (item.quantity : ℚ)) 0
      let order : Order :=
        { orderId := uuid, customerId := customerId, amount := total, status := "pending",
          items := items, createdAt := now }
      ({ carts := OrderService.Cart.destroy db.carts customerId,
         orders := db.orders ++ [order] }, .ok order)

/-- The methods of class `ShoppingRepository` that take a customer id and
return a list of orders, by property name.  The class defines `Orders`; any
other name looked up for such a call, `GetOrders` among them, is `undefined`. -/
def ShoppingRepository.ordersMethod (name : String) :
    Option (Database → String → List Order) :=
  if name = "Orders" then some ShoppingRepository.Orders else none

/-! ## `ShoppingService` -/

/-- `GetCart(customerId)`. -/
def ShoppingService.GetCart (db : Database) (customerId : String) :
    Database × Except String (Formatted CartSummary) :=
  let cartItems := ShoppingRepository.Cart db customerId
  let total := cartTotal cartItems
  (db, .ok (FormatData { items := cartItems, total := total }))

/-- `AddToCart(customerId, product)`.  The line always carries `quantity: 1`;
`publish` is the outcome of the awaited `PublishMessage` call, which runs
after the repository call. -/
def ShoppingService.AddToCart (publish : Except String Unit) (db : Database)
    (customerId : String) (product : Product) : Database × Except String (Formatted Cart) :=
  if customerId = "" ∨ product.id = "" then
    (db, .error (orMessage "Invalid input data" "Error adding to cart"))
  else
    let cartItem : CartItemInput :=
      { customerId := customerId, productId := product.id, name := product.name,
        price := product.price, quantity := 1,
        image := firstTruthy product.image product.img }
    let written := ShoppingRepository.AddCartItem db cartItem
    match publish with
    | .error message => (written.1, .error (orMessage message "Error adding to cart"))
    | .ok _ => (written.1, .ok (FormatData written.2))

/-- `RemoveFromCart(customerId, productId)`.  Reading `cart.items` on the
`null` the repository returns for a missing row throws a `TypeError`; the catch
block replaces every message. -/
def ShoppingService.RemoveFromCart (db : Database) (customerId productId : String) :
    Database × Except String (Formatted CartSummary) :=
  if productId = "" then (db, .error "Error removing from cart")
  else
    match ShoppingRepository.RemoveCartItem db customerId productId with
    | (db1, none) => (db1, .error "Error removing from cart")
    | (db1, some cart) =>
      (db1, .ok (FormatData { items := cart.items, total := cartTotal cart.items }))

/-- `UpdateCartQuantity(customerId, productId, quantity)`. -/
def ShoppingService.UpdateCartQuantity (db : Database) (customerId productId : String)
    (quantity : JsValue) : Database × Except String (Formatted CartSummary) :=
  if productId = "" ∨ quantity.truthy = false then
    (db, .error (orMessage "Product ID and quantity are required" "Error updating cart quantity"))
  else
    match parseInt quantity with
    | none =>
      (db, .error (orMessage "Quantity must be a positive number" "Error updating cart quantity"))
    | some qty =>
      if qty ≤ 0 then
        (db, .error (orMessage "Quantity must be a positive number" "Error updating cart quantity"))
      else
        match ShoppingRepository.UpdateCartItemQuantity db customerId productId qty with
        | (db1, .error message) =>
          (db1, .error (orMessage message "Error updating cart quantity"))
        | (db1, .ok cart) =>
          (db1, .ok (FormatData { items := cart.items, total := cartTotal cart.items }))

/-- `ClearCart(customerId)`. -/
def ShoppingService.ClearCart (db : Database) (customerId : String) :
    Database × Except String (Formatted CartSummary) :=
  if customerId = "" then (db, .error "Error clearing cart")
  else
    ((ShoppingRepository.ClearCart db customerId).1,
      .ok (FormatData { items := [], total := 0 }))

/-- The part of `CreateOrder` that follows the repository call: on an order,
the cart is cleared, then the `ORDER_CREATED` message is published (`publish`
is the outcome of that awaited call), then the order is returned; a throw
anywhere reaches the catch block. -/
def ShoppingService.CreateOrder.afterRepository (publish : Except String Unit)
    (customerId : String) (created : Database × Except String Order) :
    Database × Except String (Formatted Order) :=
  match created with
  | (db1, .error message) => (db1, .error (orMessage message "Error creating order"))
  | (db1, .ok order) =>
    let db2 := (ShoppingRepository.ClearCart db1 customerId).1
    match publish with
    | .error message => (db2, .error (orMessage message "Error creating order"))
    | .ok _ => (db2, .ok (FormatData order))

/-- `CreateOrder(customerId, orderData)`.  The repository is called with
`cart.items`, the array, as its `cart` argument. -/
def ShoppingService.CreateOrder (uuid : String) (now : Nat) (publish : Except String Unit)
    (db : Database) (customerId : String) : Database × Except String (Formatted Order) :=
  if customerId = "" then
    (db, .error (orMessage "Customer ID is required" "Error creating order"))
  else
    let items := ShoppingRepository.Cart db customerId
    if items.length = 0 then (db, .error (orMessage "Cart is empty" "Error creating order"))
    else
      ShoppingService.CreateOrder.afterRepository publish customerId
        (ShoppingRepository.CreateOrder uuid now db customerId (.array items))

/-- `GetOrders(customerId)`.  The call `this.repository.GetOrders(customerId)`
throws a `TypeError` when the property is `undefined`; the catch block
replaces every message. -/
def ShoppingService.GetOrders (db : Database) (customerId : String) :
    Database × Except String (Formatted (List Order)) :=
  if customerId = "" then (db, .error "Error fetching orders")
  else
    match ShoppingRepository.ordersMethod "GetOrders" with
    | none => (db, .error "Error fetching orders")
    | some method => (db, .ok (FormatData (method db customerId)))

/-! ## The cart route and sequences of calls -/

/-- The JSON body of `POST /cart`.  A missing `productId` or `name` is the
empty string, a missing `price` is `0` (all falsy). -/
structure AddToCartBody where
  productId : String
  name : String
  price : ℚ
  quantity : JsValue
  image : Option String
deriving DecidableEq

/-- A JavaScript call that passes one argument more than the callee declares
parameters: the surplus argument is evaluated and never bound. -/
def callWithSurplusArgument {α β : Type} (call : α) (_surplus : β) : α := call

/-- The handler of `POST /cart`: rejects a body with a missing field, then
calls `service.AddToCart(userId, product, parseInt(quantity) || 1)`.  The
service method declares the two parameters `customerId` and `product`. -/
def Routes.postCart (publish : Except String Unit) (db : Database) (userId : String)
    (body : AddToCartBody) : Database × Except String Cart :=
  if body.productId = "" ∨ body.name = "" ∨ body.price = 0 then
    (db, .error "Missing required fields")
  else
    let quantity : Int :=
      match body.quantity with
      | .undefined => 1
      | v =>
        match parseInt v with
        | none => 1
        | some q => if q = 0 then 1 else q
    let product : Product :=
      { id := body.productId, name := body.name, price := body.price, image := body.image,
        img := none }
    match callWithSurplusArgument (ShoppingService.AddToCart publish db userId product)
        quantity with
    | (db1, .ok formatted) => (db1, .ok formatted.data)
    | (db1, .error message) => (db1, .error message)

/-- One `POST /cart` request per requested quantity, all for the product of
`body`, each with a successful publish. -/
def addRepeatedly (db : Database) (userId : String) (body : AddToCartBody)
    (quantities : List SafeInteger) : Database :=
  quantities.foldl
    (fun acc q => (Routes.postCart (.ok ()) acc userId { body with quantity := .num q }).1) db

/-- A call of one of the four cart-mutating operations of the service. -/
inductive CartCall where
  | addToCart (publish : Except String Unit) (customerId : String) (product : Product)
  | updateCartQuantity (customerId productId : String) (quantity : JsValue)
  | removeFromCart (customerId productId : String)
  | clearCart (customerId : String)

/-- The store after the call, whether it returned or threw. -/
def CartCall.run (db : Database) : CartCall → Database
  | .addToCart publish customerId product =>
    (ShoppingService.AddToCart publish db customerId product).1
  | .updateCartQuantity customerId productId quantity =>
    (ShoppingService.UpdateCartQuantity db customerId productId quantity).1
  | .removeFromCart customerId productId =>
    (ShoppingService.RemoveFromCart db customerId productId).1
  | .clearCart customerId => (ShoppingService.ClearCart db customerId).1

/-- The store after a sequence of calls, first call first. -/
def runCalls (db : Database) (calls : List CartCall) : Database :=
  calls.foldl CartCall.run db

/-- The store before any request: both tables empty. -/
def emptyDatabase : Database := { carts := [], orders := [] }

/-- Cart well-formedness as the spec states it: within a cart no two lines
share a product id, and every line has quantity at least 1. -/
def Cart.WellFormed (cart : Cart) : Prop :=
  (cart.items.map (fun item => item.productId)).Nodup ∧
    ∀ item ∈ cart.items, 1 ≤ item.quantity

/-! ## Sample data -/

/-- The two lines of the spec's checkout scenario. -/
def sampleItems : List CartItem :=
  [{ productId := "p1", name := "Pen", price := 10, quantity := 2, image := none },
   { productId := "p2", name := "Ink", price := 5, quantity := 1, image := none }]

/-- A store in which customer `c1` holds the two sample lines. -/
def sampleDatabase : Database := { carts := [{ customerId := "c1", items := sampleItems }], orders := [] }

/-- A `POST /cart` body for product `p1`. -/
def sampleBody : AddToCartBody :=
  { productId := "p1", name := "Pen", price := 10, quantity := .undefined, image := none }

/-! ## Facts about the carts table -/

theorem Cart.findOne_customerId {carts : List Cart} {customerId : String} {cart : Cart}
    (h : Cart.findOne carts customerId = some cart) : cart.customerId = customerId := by
  have := List.find?_some h
  simpa using this

theorem Cart.findOne_mem {carts : List Cart} {customerId : String} {cart : Cart}
    (h : Cart.findOne carts customerId = some cart) : cart ∈ carts :=
  List.mem_of_find?_eq_some h

theorem Cart.findOne_append_of_none {carts : List Cart} {customerId : String}
    (h : Cart.findOne carts customerId = none) (items : List CartItem) :
    Cart.findOne (carts ++ [{ customerId := customerId, items := items }]) customerId
      = some { customerId := customerId, items := items } := by
  unfold Cart.findOne at h ⊢
  rw [List.find?_append, h]
  simp

theorem Cart.findOne_append_of_ne {carts : List Cart} {customerId other : String}
    (hne : other ≠ customerId) (items : List CartItem) :
    Cart.findOne (carts ++ [{ customerId := customerId, items := items }]) other
      = Cart.findOne carts other := by
  unfold Cart.findOne
  rw [List.find?_append]
  have : ¬ customerId = other := fun h => hne h.symm
  cases List.find? (fun c => c.customerId == other) carts <;> simp [this]

theorem Cart.findOne_update {carts : List Cart} {customerId : String} {cart : Cart}
    (h : Cart.findOne carts customerId = some cart) (items : List CartItem) :
    Cart.findOne (Cart.update customerId items carts) customerId
      = some { cart with items := items } := by
  induction carts with
  | nil => simp [Cart.findOne] at h
  | cons c cs ih =>
    by_cases hc : c.customerId = customerId
    · simp [Cart.findOne, hc] at h
      simp [Cart.update, Cart.findOne, hc, ← h]
    · have h1 : Cart.findOne cs customerId = some cart := by
        simpa [Cart.findOne, hc] using h
      have h2 := ih h1
      simp only [Cart.update, beq_iff_eq, hc, if_false]
      simpa [Cart.findOne, hc] using h2

theorem Cart.findOne_update_of_ne {customerId other : String} (hne : other ≠ customerId)
    (items : List CartItem) (carts : List Cart) :
    Cart.findOne (Cart.update customerId items carts) other = Cart.findOne carts other := by
  induction carts with
  | nil => rfl
  | cons c cs ih =>
    by_cases hc : c.customerId = customerId
    · have hco : ¬ c.customerId = other := fun h => hne (h.symm.trans hc)
      have hcu : ¬ customerId = other := fun h => hne h.symm
      simp [Cart.update, Cart.findOne, hc, hcu]
    · simp only [Cart.update, beq_iff_eq, hc, if_false]
      by_cases hco : c.customerId = other
      · simp [Cart.findOne, hco]
      · simpa [Cart.findOne, hco] using ih

theorem Cart.update_self {carts : List Cart} {customerId : String} {cart : Cart}
    (h : Cart.findOne carts customerId = some cart) :
    Cart.update customerId cart.items carts = carts := by
  induction carts with
  | nil => rfl
  | cons c cs ih =>
    by_cases hc : c.customerId = customerId
    · simp [Cart.findOne, hc] at h
      subst h
      cases c
      simp_all [Cart.update]
    · have h1 : Cart.findOne cs customerId = some cart := by
        simpa [Cart.findOne, hc] using h
      simp [Cart.update, hc, ih h1]

theorem Cart.mem_update {customerId : String} {items : List CartItem} {carts : List Cart}
    {cart : Cart} (h : cart ∈ Cart.update customerId items carts) :
    cart ∈ carts ∨ cart.items = items := by
  induction carts with
  | nil => simp [Cart.update] at h
  | cons c cs ih =>
    by_cases hc : c.customerId = customerId
    · simp [Cart.update, hc] at h
      rcases h with h | h
      · right; simp [h]
      · left; simp [h]
    · simp only [Cart.update, beq_iff_eq, hc, if_false, List.mem_cons] at h
      rcases h with h | h
      · left; simp [h]
      · rcases ih h with h' | h'
        · left; exact List.mem_cons_of_mem _ h'
        · right; exact h'

theorem Cart.update_map_customerId (customerId : String) (items : List CartItem)
    (carts : List Cart) :
    (Cart.update customerId items carts).map (fun c => c.customerId)
      = carts.map (fun c => c.customerId) := by
  induction carts with
  | nil => rfl
  | cons c cs ih =>
    by_cases hc : c.customerId = customerId
    · simp [Cart.update, hc]
    · simp [Cart.update, hc, ih]

/-! ## Facts about lines -/

theorem cartTotal_eq_sum (items : List CartItem) :
    cartTotal items = (items.map (fun item => item.price * (item.quantity : ℚ))).sum := by
  have h : ∀ (l : List CartItem) (a : ℚ),
      l.foldl (fun sum item => sum + item.price * (item.quantity : ℚ)) a
        = a + (l.map (fun item => item.price * (item.quantity : ℚ))).sum := by
    intro l
    induction l with
    | nil => intro a; simp
    | cons x xs ih => intro a; simp [ih, add_assoc]
  simpa [cartTotal] using h items 0

theorem findIndex_eq_none {α : Type} {p : α → Bool} {l : List α} :
    findIndex p l = none ↔ ∀ x ∈ l, p x = false := by
  induction l with
  | nil => simp [findIndex]
  | cons x xs ih =>
    by_cases hx : p x = true
    · simp [findIndex, hx]
    · simp [findIndex, hx, ih]

theorem findIndex_eq_some {α : Type} {p : α → Bool} {l : List α} {i : Nat}
    (h : findIndex p l = some i) :
    ∃ before x after, l = before ++ x :: after ∧ (∀ y ∈ before, p y = false) ∧
      p x = true ∧ before.length = i := by
  induction l generalizing i with
  | nil => simp [findIndex] at h
  | cons a as ih =>
    by_cases ha : p a = true
    · simp [findIndex, ha] at h
      exact ⟨[], a, as, rfl, by simp, ha, by simpa using h⟩
    · simp [findIndex, ha] at h
      obtain ⟨j, hj, hji⟩ := h
      obtain ⟨before, x, after, hl, hb, hx, hlen⟩ := ih hj
      refine ⟨a :: before, x, after, by simp [hl], ?_, hx, by simp [hlen, hji]⟩
      intro y hy
      rcases List.mem_cons.mp hy with rfl | hy
      · simpa using ha
      · exact hb y hy

theorem modifyQuantityAt_append (f : Int → Int) (before : List CartItem) (x : CartItem)
    (after : List CartItem) :
    modifyQuantityAt f before.length (before ++ x :: after)
      = before ++ { x with quantity := f x.quantity } :: after := by
  induction before with
  | nil => rfl
  | cons b bs ih => simp [modifyQuantityAt, ih]

theorem modifyQuantityAt_productIds (f : Int → Int) (i : Nat) (items : List CartItem) :
    (modifyQuantityAt f i items).map (fun item => item.productId)
      = items.map (fun item => item.productId) := by
  induction items generalizing i with
  | nil => cases i <;> rfl
  | cons x xs ih =>
    cases i with
    | zero => simp [modifyQuantityAt]
    | succ n => simp [modifyQuantityAt, ih]

theorem mem_modifyQuantityAt {f : Int → Int} {i : Nat} {items : List CartItem}
    {item : CartItem} (h : item ∈ modifyQuantityAt f i items) :
    item ∈ items ∨ ∃ x ∈ items, item.quantity = f x.quantity := by
  induction items generalizing i with
  | nil => cases i <;> simp [modifyQuantityAt] at h
  | cons x xs ih =>
    cases i with
    | zero =>
      simp [modifyQuantityAt] at h
      rcases h with h | h
      · right; exact ⟨x, by simp, by simp [h]⟩
      · left; simp [h]
    | succ n =>
      simp [modifyQuantityAt] at h
      rcases h with h | h
      · left; simp [h]
      · rcases ih h with h' | ⟨y, hy, hq⟩
        · left; exact List.mem_cons_of_mem _ h'
        · right; exact ⟨y, List.mem_cons_of_mem _ hy, hq⟩

/-- A value whose `parseInt` is a non-zero integer is truthy. -/
theorem truthy_of_parseInt {v : JsValue} {q : Int} (h : parseInt v = some q) (hq : q ≠ 0) :
    v.truthy = true := by
  cases v with
  | undefined => simp [parseInt] at h
  | num n =>
    simp [parseInt] at h
    simp [JsValue.truthy, h, hq]
  | real printed => rfl
  | str s =>
    by_cases hs : s = ""
    · subst hs
      have hNaN : parseIntString "" = none := by decide
      simp [parseInt, hNaN] at h
    · simp [JsValue.truthy, hs]

/-! ## Checkout -/

/-- Whatever the cart holds, `ShoppingService.CreateOrder` ends in its catch
block with the store as it was: a falsy customer id is rejected by the first
guard, an empty cart by the second, and a non-empty cart by the guard of the
repository, which is handed the array in place of the cart. -/
theorem ShoppingService.CreateOrder_eq (uuid : String) (now : Nat)
    (publish : Except String Unit) (db : Database) (customerId : String) :
    ShoppingService.CreateOrder uuid now publish db customerId =
      (db, .error (if customerId = "" then "Customer ID is required" else "Cart is empty")) := by
  unfold ShoppingService.CreateOrder
  by_cases hc : customerId = ""
  · simp [hc, orMessage]
  · by_cases hl : (ShoppingRepository.Cart db customerId).length = 0
    · simp [hc, hl, orMessage]
    · simp [hc, hl, orMessage, ShoppingRepository.CreateOrder,
        ShoppingService.CreateOrder.afterRepository]

/-- C1 (the code at the spec's checkout scenario): with the cart
`[p1 at 10 x 2, p2 at 5 x 1]` stored for a customer, `ShoppingService.CreateOrder`
throws `Cart is empty` and leaves both tables as they were, so the cart read
afterwards still holds the two lines with total 25; the repository method
itself, given the cart object, does create the pending order of amount 25
with those items and deletes the cart row. -/
theorem C1_CreateOrder_throws_on_sample_cart :
    ShoppingService.CreateOrder "id-1" 7 (.ok ()) sampleDatabase "c1"
        = (sampleDatabase, .error "Cart is empty") ∧
      ShoppingService.GetCart sampleDatabase "c1"
        = (sampleDatabase, .ok (FormatData { items := sampleItems, total := 25 })) ∧
      ShoppingRepository.CreateOrder "id-1" 7 sampleDatabase "c1" (.object sampleItems)
        = ({ carts := [],
             orders := [{ orderId := "id-1", customerId := "c1", amount := 25,
                          status := "pending", items := sampleItems, createdAt := 7 }] },
           .ok { orderId := "id-1", customerId := "c1", amount := 25, status := "pending",
                 items := sampleItems, createdAt := 7 }) := by
  refine ⟨?_, ?_, ?_⟩ <;> with_unfolding_all decide

/-! ## Adding to the cart -/

/-- The store after a `POST /cart` with a complete body: the repository write
for a line of quantity 1, whatever quantity the body asked for. -/
theorem Routes.postCart_store (db : Database) (userId : String) (body : AddToCartBody)
    (q : JsValue) (hUser : userId ≠ "") (hProduct : body.productId ≠ "")
    (hName : body.name ≠ "") (hPrice : body.price ≠ 0) :
    (Routes.postCart (.ok ()) db userId { body with quantity := q }).1
      = (ShoppingRepository.AddCartItem db
          { customerId := userId, productId := body.productId, name := body.name,
            price := body.price, quantity := 1, image := firstTruthy body.image none }).1 := by
  simp only [Routes.postCart, callWithSurplusArgument, ShoppingService.AddToCart]
  simp [hUser, hProduct, hName, hPrice]

/-- The first `AddCartItem` of a customer stores a cart with the one line. -/
theorem AddCartItem_first (db : Database) (cartItem : CartItemInput)
    (h : Cart.findOne db.carts cartItem.customerId = none) :
    ∃ cart, Cart.findOne (ShoppingRepository.AddCartItem db cartItem).1.carts
        cartItem.customerId = some cart ∧
      cart.items.map (fun i => (i.productId, i.quantity))
        = [(cartItem.productId, cartItem.quantity)] := by
  refine ⟨⟨cartItem.customerId, [⟨cartItem.productId, cartItem.name, cartItem.price,
    cartItem.quantity, cartItem.image⟩]⟩, ?_, ?_⟩
  · simp only [ShoppingRepository.AddCartItem, h]
    exact Cart.findOne_append_of_none h _
  · simp

/-- `AddCartItem` for a customer who has a cart row leaves both tables as they
were: the changed array is the one the instance holds, so nothing is sent. -/
theorem AddCartItem_store_of_existing (db : Database) (cartItem : CartItemInput) (cart : Cart)
    (h : Cart.findOne db.carts cartItem.customerId = some cart) :
    (ShoppingRepository.AddCartItem db cartItem).1 = db := by
  simp only [ShoppingRepository.AddCartItem, h, Cart.updateWithHeldArray]

/-- Repeating `POST /cart` for a customer who has a cart row leaves the store
as it was. -/
theorem addRepeatedly_of_existing (userId : String) (body : AddToCartBody)
    (hUser : userId ≠ "") (hProduct : body.productId ≠ "")
    (hName : body.name ≠ "") (hPrice : body.price ≠ 0) (quantities : List SafeInteger) :
    ∀ (db : Database) (cart : Cart), Cart.findOne db.carts userId = some cart →
      addRepeatedly db userId body quantities = db := by
  induction quantities with
  | nil => intro db cart _; rfl
  | cons q qs ih =>
    intro db cart h
    have hstep := Routes.postCart_store db userId body (.num q) hUser hProduct hName hPrice
    have hsame := AddCartItem_store_of_existing db
      { customerId := userId, productId := body.productId, name := body.name,
        price := body.price, quantity := 1, image := firstTruthy body.image none } cart h
    rw [← hstep] at hsame
    have hrest := ih db cart h
    simp only [addRepeatedly, List.foldl_cons] at hrest ⊢
    rw [hsame]
    exact hrest

/-- C2 (what the code does): starting with no cart for the customer, one
`POST /cart` per requested quantity for the same product leaves exactly one
stored line for that product, with quantity 1 whatever the requested
quantities and however many requests: the quantity argument is not a
parameter of `ShoppingService.AddToCart`, which always sends `quantity: 1`,
and only the first request, which creates the row, reaches the table. -/
theorem C2_stored_quantity_stays_one (db : Database) (userId : String) (body : AddToCartBody)
    (quantities : List SafeInteger) (hUser : userId ≠ "") (hProduct : body.productId ≠ "")
    (hName : body.name ≠ "") (hPrice : body.price ≠ 0)
    (hNoCart : Cart.findOne db.carts userId = none) (hNonempty : quantities ≠ []) :
    ∃ cart, Cart.findOne (addRepeatedly db userId body quantities).carts userId = some cart ∧
      cart.items.map (fun i => (i.productId, i.quantity)) = [(body.productId, 1)] := by
  cases quantities with
  | nil => exact absurd rfl hNonempty
  | cons q qs =>
    have hstep := Routes.postCart_store db userId body (.num q) hUser hProduct hName hPrice
    obtain ⟨cart1, h1, hItems1⟩ := AddCartItem_first db
      { customerId := userId, productId := body.productId, name := body.name,
        price := body.price, quantity := 1, image := firstTruthy body.image none } hNoCart
    rw [← hstep] at h1
    have hrest := addRepeatedly_of_existing userId body hUser hProduct hName hPrice qs _ cart1 h1
    refine ⟨cart1, ?_, hItems1⟩
    simp only [addRepeatedly, List.foldl_cons] at hrest ⊢
    rw [hrest]
    exact h1

/-- C2 (the code at the spec's scenario): requests with quantity 1 and then 3
for `p1` leave one stored line for `p1` with quantity 1, where the scenario
has 4; the response to the second request shows quantity 2, and the cart read
afterwards shows quantity 1. -/
theorem C2_stored_quantity_stays_one_witness :
    (∃ cart,
      Cart.findOne
          (addRepeatedly emptyDatabase "c1" sampleBody [⟨1, by decide⟩, ⟨3, by decide⟩]).carts
          "c1" = some cart ∧
      cart.items.map (fun i => (i.productId, i.quantity)) = [("p1", 1)]) ∧
    addRepeatedly emptyDatabase "c1" sampleBody [⟨1, by decide⟩, ⟨3, by decide⟩]
      = { carts := [{ customerId := "c1",
                      items := [{ productId := "p1", name := "Pen", price := 10, quantity := 1,
                                  image := none }] }],
          orders := [] } ∧
    Routes.postCart (.ok ())
        (addRepeatedly emptyDatabase "c1" sampleBody [⟨1, by decide⟩]) "c1"
        { sampleBody with quantity := .num ⟨3, by decide⟩ }
      = ({ carts := [{ customerId := "c1",
                       items := [{ productId := "p1", name := "Pen", price := 10,
                                   quantity := 1, image := none }] }],
           orders := [] },
         .ok { customerId := "c1",
               items := [{ productId := "p1", name := "Pen", price := 10, quantity := 2,
                           image := none }] }) ∧
    (ShoppingService.GetCart
        (addRepeatedly emptyDatabase "c1" sampleBody [⟨1, by decide⟩, ⟨3, by decide⟩]) "c1").2
      = .ok (FormatData
          { items := [{ productId := "p1", name := "Pen", price := 10, quantity := 1,
                        image := none }],
            total := 10 }) :=
  ⟨C2_stored_quantity_stays_one emptyDatabase "c1" sampleBody [⟨1, by decide⟩, ⟨3, by decide⟩]
      (by decide) (by decide) (by decide) (by decide) (by decide) (by decide),
    by with_unfolding_all decide, by with_unfolding_all decide, by with_unfolding_all decide⟩

/-! ## Checkout on an empty cart -/

/-- `ClearCart` of the repository writes to the carts table only. -/
theorem ShoppingRepository.ClearCart_orders (db : Database) (customerId : String) :
    (ShoppingRepository.ClearCart db customerId).1.orders = db.orders := by
  unfold ShoppingRepository.ClearCart
  cases OrderService.Cart.findOne db.carts customerId <;> rfl

/-- C3 (counterexample): for the falsy customer id, which has no cart, the
call does not fail with `Cart is empty`: the first guard throws
`Customer ID is required`. -/
theorem C3_counterexample_falsy_customerId :
    ¬ ((∀ cart, Cart.findOne emptyDatabase.carts "" = some cart → cart.items = []) →
        ShoppingService.CreateOrder "id-1" 7 (.ok ()) emptyDatabase ""
          = (emptyDatabase, .error "Cart is empty")) ∧
      ShoppingService.CreateOrder "id-1" 7 (.ok ()) emptyDatabase ""
        = (emptyDatabase, .error "Customer ID is required") := by
  refine ⟨fun h => ?_, by decide⟩
  have h1 := h (fun cart hc => by simp [Cart.findOne, emptyDatabase] at hc)
  revert h1
  decide

/-- C3 (amended): when the customer's cart is absent or has no items,
`ShoppingService.CreateOrder` throws and both tables are as before, so no order
record is created; the message is `Cart is empty` for a non-empty customer id
and `Customer ID is required` for a falsy one. -/
theorem C3_CreateOrder_rejects_empty_cart (uuid : String) (now : Nat)
    (publish : Except String Unit) (db : Database) (customerId : String)
    (hEmpty : ∀ cart, Cart.findOne db.carts customerId = some cart → cart.items = []) :
    ShoppingService.CreateOrder uuid now publish db customerId =
      (db, .error (if customerId = "" then "Customer ID is required" else "Cart is empty")) := by
  have hItems : ShoppingRepository.Cart db customerId = [] := by
    unfold ShoppingRepository.Cart
    cases hc : OrderService.Cart.findOne db.carts customerId with
    | none => rfl
    | some cart => simpa using hEmpty cart hc
  unfold ShoppingService.CreateOrder
  by_cases hc : customerId = ""
  · simp [hc, orMessage]
  · simp [hc, hItems, orMessage]

/-- C3 (witness): customer `c1` with a stored cart that has no items. -/
theorem C3_CreateOrder_rejects_empty_cart_witness :
    ShoppingService.CreateOrder "id-1" 7 (.ok ())
        { carts := [{ customerId := "c1", items := [] }], orders := [] } "c1"
      = ({ carts := [{ customerId := "c1", items := [] }], orders := [] },
          .error "Cart is empty") :=
  C3_CreateOrder_rejects_empty_cart "id-1" 7 (.ok ())
    { carts := [{ customerId := "c1", items := [] }], orders := [] } "c1"
    (fun cart hc => by
      simp [Cart.findOne] at hc
      simp [← hc])

/-! ## Listing orders -/

/-- C4 (the code on every input): `ShoppingService.GetOrders` throws
`Error fetching orders` for every customer id and every store, because the
repository has no method `GetOrders`; the repository method `Orders`, which the
service does not call, returns a rearrangement of exactly the customer's orders
in descending creation time. -/
theorem C4_GetOrders_always_throws (db : Database) (customerId : String) :
    ShoppingService.GetOrders db customerId = (db, .error "Error fetching orders") ∧
      (ShoppingRepository.Orders db customerId).Perm
        (db.orders.filter (fun o => o.customerId == customerId)) ∧
      (ShoppingRepository.Orders db customerId).Sorted
        (fun a b => b.createdAt ≤ a.createdAt) := by
  refine ⟨?_, ?_, ?_⟩
  · unfold ShoppingService.GetOrders
    by_cases hc : customerId = ""
    · simp [hc]
    · have hm : ShoppingRepository.ordersMethod "GetOrders" = none :=
        if_neg (by decide)
      simp [hc, hm]
  · exact List.perm_insertionSort _ _
  · haveI : IsTotal Order (fun a b => b.createdAt ≤ a.createdAt) :=
      ⟨fun a b => Nat.le_total _ _⟩
    haveI : IsTrans Order (fun a b => b.createdAt ≤ a.createdAt) :=
      ⟨fun _ _ _ hab hbc => Nat.le_trans hbc hab⟩
    exact List.sorted_insertionSort _ _

/-! ## Publishing after checkout -/

/-- The steps of `CreateOrder` that follow the repository call rethrow a
failed publish whatever the repository returned; after a created order the
cart has been cleared and the orders table keeps what the repository wrote. -/
theorem ShoppingService.CreateOrder.afterRepository_publish_error (message : String)
    (customerId : String) :
    (∀ created, ∃ msg,
        (ShoppingService.CreateOrder.afterRepository (.error message) customerId created).2
          = .error msg) ∧
      (∀ db1 order,
        ShoppingService.CreateOrder.afterRepository (.error message) customerId (db1, .ok order)
            = ((ShoppingRepository.ClearCart db1 customerId).1,
                .error (orMessage message "Error creating order")) ∧
          (ShoppingRepository.ClearCart db1 customerId).1.orders = db1.orders) := by
  refine ⟨?_, ?_⟩
  · rintro ⟨db1, r⟩
    cases r with
    | error m => exact ⟨_, rfl⟩
    | ok order => exact ⟨_, rfl⟩
  · intro db1 order
    exact ⟨rfl, ShoppingRepository.ClearCart_orders db1 customerId⟩

/-- C5 (the code at a non-empty cart with a failing publish): customer `c1`
holds the sample cart and the publish would fail with `channel closed`;
`ShoppingService.CreateOrder` throws `Cart is empty` and leaves both tables as
they were, so no order is persisted and none is returned.  The outcome is the
same when the publish would succeed: the repository call throws before the
publish is attempted. -/
theorem C5_CreateOrder_throws_before_publish :
    ShoppingRepository.Cart sampleDatabase "c1" ≠ [] ∧
      ShoppingService.CreateOrder "id-1" 7 (.error "channel closed") sampleDatabase "c1"
        = (sampleDatabase, .error "Cart is empty") ∧
      ShoppingService.CreateOrder "id-1" 7 (.ok ()) sampleDatabase "c1"
        = (sampleDatabase, .error "Cart is empty") ∧
      (ShoppingService.CreateOrder "id-1" 7 (.error "channel closed") sampleDatabase
        "c1").1.orders = [] := by
  refine ⟨by decide, by decide, by decide, by decide⟩

/-! ## Updating a quantity -/

/-- C6: when the integer value of the quantity is below 1 or is not a number,
`ShoppingService.UpdateCartQuantity` throws one of its two validation errors
and the store is returned as it was, for every customer, product id and store. -/
theorem C6_UpdateCartQuantity_rejects_below_one (db : Database) (customerId productId : String)
    (quantity : JsValue) (hBelow : ∀ n, parseInt quantity = some n → n < 1) :
    ShoppingService.UpdateCartQuantity db customerId productId quantity
        = (db, .error "Product ID and quantity are required") ∨
      ShoppingService.UpdateCartQuantity db customerId productId quantity
        = (db, .error "Quantity must be a positive number") := by
  unfold ShoppingService.UpdateCartQuantity
  by_cases hGuard : productId = "" ∨ quantity.truthy = false
  · left
    rw [if_pos hGuard]
    rfl
  · right
    rw [if_neg hGuard]
    cases hp : parseInt quantity with
    | none => rfl
    | some qty =>
      have hlt := hBelow qty hp
      have hle : qty ≤ 0 := by omega
      simp only [hle, if_true]
      rfl

/-- C6 (witness): quantity `0` on a cart that holds the product; a negative
quantity and a string that is not a number are rejected by the second guard. -/
theorem C6_UpdateCartQuantity_rejects_below_one_witness :
    (ShoppingService.UpdateCartQuantity sampleDatabase "c1" "p1" (.num ⟨0, by decide⟩)
        = (sampleDatabase, .error "Product ID and quantity are required") ∨
      ShoppingService.UpdateCartQuantity sampleDatabase "c1" "p1" (.num ⟨0, by decide⟩)
        = (sampleDatabase, .error "Quantity must be a positive number")) ∧
    ShoppingService.UpdateCartQuantity sampleDatabase "c1" "p1" (.num ⟨-2, by decide⟩)
      = (sampleDatabase, .error "Quantity must be a positive number") ∧
    ShoppingService.UpdateCartQuantity sampleDatabase "c1" "p1" (.str "many")
      = (sampleDatabase, .error "Quantity must be a positive number") :=
  ⟨C6_UpdateCartQuantity_rejects_below_one sampleDatabase "c1" "p1" (.num ⟨0, by decide⟩)
    (fun n h => by
      simp [parseInt] at h
      omega),
    by decide, by decide⟩

/-- C7 (what the code does): for a non-empty product id and a quantity that
is an integer `n` of at least 1, `ShoppingService.UpdateCartQuantity`
* throws `Cart not found`, store unchanged, when the customer has no cart;
* throws `Item not found in cart`, store unchanged, when no line of the cart
  has the product id;
* otherwise returns `items` in which the first line with the product id has
  quantity `n`, its other fields and all other lines as they were and in
  order, with `total` the sum of price times quantity over them, while the
  store is returned as it was: the stored line keeps its old quantity, because
  the quantity is assigned inside the array the instance holds and that array
  is what `cart.update` is given. -/
theorem C7_UpdateCartQuantity_returns_without_storing (db : Database)
    (customerId productId : String) (n : SafeInteger) (hProduct : productId ≠ "")
    (hPos : 1 ≤ n.value) :
    (Cart.findOne db.carts customerId = none →
        ShoppingService.UpdateCartQuantity db customerId productId (.num n)
          = (db, .error "Cart not found")) ∧
      (∀ cart, Cart.findOne db.carts customerId = some cart →
        (∀ item ∈ cart.items, item.productId ≠ productId) →
        ShoppingService.UpdateCartQuantity db customerId productId (.num n)
          = (db, .error "Item not found in cart")) ∧
      (∀ cart, Cart.findOne db.carts customerId = some cart →
        (∃ item ∈ cart.items, item.productId = productId) →
        ∃ before line after,
          cart.items = before ++ line :: after ∧
          (∀ item ∈ before, item.productId ≠ productId) ∧
          line.productId = productId ∧
          ShoppingService.UpdateCartQuantity db customerId productId (.num n)
            = (db, .ok (FormatData
                { items := before ++ { line with quantity := n.value } :: after,
                  total := ((before ++ { line with quantity := n.value } :: after).map
                    (fun item => item.price * (item.quantity : ℚ))).sum }))) := by
  have hTruthy : (JsValue.num n).truthy = true :=
    truthy_of_parseInt (q := n.value) rfl (by omega)
  have hNotLe : ¬ n.value ≤ 0 := by omega
  have hService : ShoppingService.UpdateCartQuantity db customerId productId (.num n)
      = match ShoppingRepository.UpdateCartItemQuantity db customerId productId n.value with
        | (db1, .error message) =>
          (db1, .error (orMessage message "Error updating cart quantity"))
        | (db1, .ok cart) =>
          (db1, .ok (FormatData { items := cart.items, total := cartTotal cart.items })) := by
    simp [ShoppingService.UpdateCartQuantity, hProduct, hTruthy, parseInt, hNotLe]
  refine ⟨?_, ?_, ?_⟩
  · intro hNone
    rw [hService]
    simp only [ShoppingRepository.UpdateCartItemQuantity, hNone]
    rfl
  · intro cart hCart hNoLine
    have hIdx : findIndex (fun i : CartItem => i.productId == productId) cart.items = none :=
      findIndex_eq_none.mpr (fun x hx => by simpa using hNoLine x hx)
    rw [hService]
    simp only [ShoppingRepository.UpdateCartItemQuantity, hCart, hIdx]
    rfl
  · intro cart hCart hLine
    cases hIdx : findIndex (fun i : CartItem => i.productId == productId) cart.items with
    | none =>
      obtain ⟨item, hMem, hEq⟩ := hLine
      have := findIndex_eq_none.mp hIdx item hMem
      simp [hEq] at this
    | some i =>
      obtain ⟨before, line, after, hSplit, hBefore, hAt, hLen⟩ := findIndex_eq_some hIdx
      refine ⟨before, line, after, hSplit, fun item hItem => by simpa using hBefore item hItem,
        by simpa using hAt, ?_⟩
      have hItems : modifyQuantityAt (fun _ => n.value) i cart.items
          = before ++ { line with quantity := n.value } :: after := by
        rw [← hLen, hSplit]
        exact modifyQuantityAt_append _ _ _ _
      rw [hService]
      simp only [ShoppingRepository.UpdateCartItemQuantity, hCart, hIdx, hItems,
        Cart.updateWithHeldArray, cartTotal_eq_sum]

/-- C7 (the code at a stored line): customer `c1` sets the quantity of `p1` to
5 in the sample cart.  The call returns the lines with `p1` at 5 and total 55,
the store is the sample store still, and the cart read afterwards shows `p1`
at 2 and total 25; the same request with the quantity sent as the string `5`
does the same. -/
theorem C7_UpdateCartQuantity_returns_without_storing_witness :
    (∃ before line after,
      sampleItems = before ++ line :: after ∧
      (∀ item ∈ before, item.productId ≠ "p1") ∧
      line.productId = "p1" ∧
      ShoppingService.UpdateCartQuantity sampleDatabase "c1" "p1" (.num ⟨5, by decide⟩)
        = (sampleDatabase, .ok (FormatData
            { items := before ++ { line with quantity := 5 } :: after,
              total := ((before ++ { line with quantity := 5 } :: after).map
                (fun item => item.price * (item.quantity : ℚ))).sum }))) ∧
    ShoppingService.UpdateCartQuantity sampleDatabase "c1" "p1" (.num ⟨5, by decide⟩)
        = (sampleDatabase,
           .ok (FormatData
            { items := [{ productId := "p1", name := "Pen", price := 10, quantity := 5,
                          image := none },
                        { productId := "p2", name := "Ink", price := 5, quantity := 1,
                          image := none }],
              total := 55 })) ∧
    (ShoppingService.GetCart
        (ShoppingService.UpdateCartQuantity sampleDatabase "c1" "p1"
          (.num ⟨5, by decide⟩)).1 "c1").2
      = .ok (FormatData { items := sampleItems, total := 25 }) ∧
    ShoppingService.UpdateCartQuantity sampleDatabase "c1" "p1" (.str "5")
      = ShoppingService.UpdateCartQuantity sampleDatabase "c1" "p1" (.num ⟨5, by decide⟩) :=
  ⟨(C7_UpdateCartQuantity_returns_without_storing sampleDatabase "c1" "p1" ⟨5, by decide⟩
      (by decide) (by decide)).2.2 { customerId := "c1", items := sampleItems } (by decide)
      ⟨{ productId := "p1", name := "Pen", price := 10, quantity := 2, image := none },
        by simp [sampleItems], rfl⟩,
    by with_unfolding_all decide, by with_unfolding_all decide, by with_unfolding_all decide⟩

/-! ## Removing a line -/

/-- With a stored cart, removing a product id that no line carries returns the
cart as it is, with its total, and writes back the same rows. -/
theorem ShoppingService.RemoveFromCart_of_unlisted (db : Database)
    (customerId productId : String) (cart : Cart) (hProduct : productId ≠ "")
    (hCart : Cart.findOne db.carts customerId = some cart)
    (hUnlisted : ∀ item ∈ cart.items, item.productId ≠ productId) :
    ShoppingService.RemoveFromCart db customerId productId
      = (db, .ok (FormatData { items := cart.items, total := cartTotal cart.items })) := by
  have hFilter : cart.items.filter (fun item => item.productId != productId) = cart.items :=
    List.filter_eq_self.mpr (fun item hItem => by simpa using hUnlisted item hItem)
  simp [ShoppingService.RemoveFromCart, ShoppingRepository.RemoveCartItem, hProduct, hCart,
    hFilter, Cart.update_self hCart]

/-- C8 (the code for a customer without a cart): when there is no cart row,
`ShoppingService.RemoveFromCart` throws `Error removing from cart` for every
product id: the repository returns `null` and the service reads `cart.items`
on it.  The store is unchanged. -/
theorem C8_RemoveFromCart_throws_without_cart (db : Database) (customerId productId : String)
    (hNoCart : Cart.findOne db.carts customerId = none) :
    ShoppingService.RemoveFromCart db customerId productId
      = (db, .error "Error removing from cart") := by
  unfold ShoppingService.RemoveFromCart
  by_cases hProduct : productId = ""
  · simp [hProduct]
  · simp [hProduct, ShoppingRepository.RemoveCartItem, hNoCart]

/-- C8 (witness): product `p1`, never added, for customer `c1` in the empty
store. -/
theorem C8_RemoveFromCart_throws_without_cart_witness :
    ShoppingService.RemoveFromCart emptyDatabase "c1" "p1"
      = (emptyDatabase, .error "Error removing from cart") :=
  C8_RemoveFromCart_throws_without_cart emptyDatabase "c1" "p1" (by decide)

/-! ## Reading the cart -/

/-- C9: `ShoppingService.GetCart` succeeds and returns the store it was given;
for a customer with a stored cart the result is the stored items with the sum
of price times quantity over them as total, and for a customer without a cart
it is `{ items: [], total: 0 }`. -/
theorem C9_GetCart_items_and_total (db : Database) (customerId : String) :
    (ShoppingService.GetCart db customerId).1 = db ∧
      (∀ cart, Cart.findOne db.carts customerId = some cart →
        (ShoppingService.GetCart db customerId).2
          = .ok (FormatData
              { items := cart.items,
                total := (cart.items.map
                  (fun item => item.price * (item.quantity : ℚ))).sum })) ∧
      (Cart.findOne db.carts customerId = none →
        (ShoppingService.GetCart db customerId).2
          = .ok (FormatData { items := [], total := 0 })) := by
  refine ⟨rfl, ?_, ?_⟩
  · intro cart hCart
    simp [ShoppingService.GetCart, ShoppingRepository.Cart, hCart, cartTotal_eq_sum]
  · intro hNone
    simp [ShoppingService.GetCart, ShoppingRepository.Cart, hNone, cartTotal]

/-- C9 (witness): the sample cart reads back with total 25, and a customer
without a cart reads an empty cart with total 0. -/
theorem C9_GetCart_items_and_total_witness :
    (ShoppingService.GetCart sampleDatabase "c1").2
        = .ok (FormatData
            { items := sampleItems,
              total := (sampleItems.map
                (fun item => item.price * (item.quantity : ℚ))).sum }) ∧
      (sampleItems.map (fun item => item.price * (item.quantity : ℚ))).sum = 25 ∧
      (ShoppingService.GetCart sampleDatabase "c2").2
        = .ok (FormatData { items := [], total := 0 }) :=
  ⟨(C9_GetCart_items_and_total sampleDatabase "c1").2.1
      { customerId := "c1", items := sampleItems } (by decide),
    by with_unfolding_all decide,
    (C9_GetCart_items_and_total sampleDatabase "c2").2.2 (by decide)⟩

/-! ## Well-formed carts -/

theorem Cart.findOne_eq_none {carts : List Cart} {customerId : String} :
    Cart.findOne carts customerId = none ↔ ∀ c ∈ carts, c.customerId ≠ customerId := by
  simp [Cart.findOne, List.find?_eq_none]

theorem wellFormed_update {db : Database} {customerId : String} {items : List CartItem}
    (hInv : (∀ cart ∈ db.carts, cart.WellFormed) ∧
      (db.carts.map (fun c => c.customerId)).Nodup)
    (hItems : (items.map (fun item => item.productId)).Nodup ∧
      ∀ item ∈ items, 1 ≤ item.quantity) :
    (∀ cart ∈ Cart.update customerId items db.carts, cart.WellFormed) ∧
      ((Cart.update customerId items db.carts).map (fun c => c.customerId)).Nodup := by
  refine ⟨fun cart hMem => ?_, by rw [Cart.update_map_customerId]; exact hInv.2⟩
  rcases Cart.mem_update hMem with h | h
  · exact hInv.1 cart h
  · unfold Cart.WellFormed
    rw [h]
    exact hItems

theorem wellFormed_AddCartItem {db : Database} (cartItem : CartItemInput)
    (hQuantity : 1 ≤ cartItem.quantity)
    (hInv : (∀ cart ∈ db.carts, cart.WellFormed) ∧
      (db.carts.map (fun c => c.customerId)).Nodup) :
    (∀ cart ∈ (ShoppingRepository.AddCartItem db cartItem).1.carts, cart.WellFormed) ∧
      ((ShoppingRepository.AddCartItem db cartItem).1.carts.map
        (fun c => c.customerId)).Nodup := by
  cases hCart : Cart.findOne db.carts cartItem.customerId with
  | none =>
    simp only [ShoppingRepository.AddCartItem, hCart]
    have hNew := Cart.findOne_eq_none.mp hCart
    refine ⟨fun cart hMem => ?_, ?_⟩
    · rcases List.mem_append.mp hMem with h | h
      · exact hInv.1 cart h
      · simp at h
        subst h
        simp [Cart.WellFormed, hQuantity]
    · rw [List.map_append, List.nodup_append]
      refine ⟨hInv.2, by simp, ?_⟩
      intro a ha hb
      simp at hb
      obtain ⟨c, hc, hca⟩ := List.mem_map.mp ha
      exact hNew c hc (hca.trans hb)
  | some cart =>
    simp only [ShoppingRepository.AddCartItem, hCart, Cart.updateWithHeldArray]
    exact hInv

theorem wellFormed_UpdateCartItemQuantity {db : Database} (customerId productId : String)
    (quantity : Int) (_hQuantity : 1 ≤ quantity)
    (hInv : (∀ cart ∈ db.carts, cart.WellFormed) ∧
      (db.carts.map (fun c => c.customerId)).Nodup) :
    (∀ cart ∈ (ShoppingRepository.UpdateCartItemQuantity db customerId productId
        quantity).1.carts, cart.WellFormed) ∧
      ((ShoppingRepository.UpdateCartItemQuantity db customerId productId
        quantity).1.carts.map (fun c => c.customerId)).Nodup := by
  cases hCart : Cart.findOne db.carts customerId with
  | none => simpa only [ShoppingRepository.UpdateCartItemQuantity, hCart] using hInv
  | some cart =>
    have hWf := hInv.1 cart (Cart.findOne_mem hCart)
    cases hIdx : findIndex (fun i : CartItem => i.productId == productId) cart.items with
    | none => simpa only [ShoppingRepository.UpdateCartItemQuantity, hCart, hIdx] using hInv
    | some i =>
      simp only [ShoppingRepository.UpdateCartItemQuantity, hCart, hIdx,
        Cart.updateWithHeldArray]
      exact hInv

theorem wellFormed_RemoveCartItem {db : Database} (customerId productId : String)
    (hInv : (∀ cart ∈ db.carts, cart.WellFormed) ∧
      (db.carts.map (fun c => c.customerId)).Nodup) :
    (∀ cart ∈ (ShoppingRepository.RemoveCartItem db customerId productId).1.carts,
        cart.WellFormed) ∧
      ((ShoppingRepository.RemoveCartItem db customerId productId).1.carts.map
        (fun c => c.customerId)).Nodup := by
  cases hCart : Cart.findOne db.carts customerId with
  | none => simpa only [ShoppingRepository.RemoveCartItem, hCart] using hInv
  | some cart =>
    have hWf := hInv.1 cart (Cart.findOne_mem hCart)
    simp only [ShoppingRepository.RemoveCartItem, hCart]
    apply wellFormed_update hInv
    refine ⟨hWf.1.sublist ((List.filter_sublist _).map _), ?_⟩
    intro item hItem
    exact hWf.2 item (List.mem_of_mem_filter hItem)

theorem wellFormed_ClearCart {db : Database} (customerId : String)
    (hInv : (∀ cart ∈ db.carts, cart.WellFormed) ∧
      (db.carts.map (fun c => c.customerId)).Nodup) :
    (∀ cart ∈ (ShoppingRepository.ClearCart db customerId).1.carts, cart.WellFormed) ∧
      ((ShoppingRepository.ClearCart db customerId).1.carts.map
        (fun c => c.customerId)).Nodup := by
  cases hCart : Cart.findOne db.carts customerId with
  | none => simpa only [ShoppingRepository.ClearCart, hCart] using hInv
  | some cart =>
    simp only [ShoppingRepository.ClearCart, hCart]
    exact wellFormed_update hInv ⟨by simp, by simp⟩

/-- Every call of the four operations keeps the invariant, whether it returns
or throws. -/
theorem wellFormed_run (db : Database) (call : CartCall)
    (hInv : (∀ cart ∈ db.carts, cart.WellFormed) ∧
      (db.carts.map (fun c => c.customerId)).Nodup) :
    (∀ cart ∈ (call.run db).carts, cart.WellFormed) ∧
      ((call.run db).carts.map (fun c => c.customerId)).Nodup := by
  cases call with
  | addToCart publish customerId product =>
    simp only [CartCall.run, ShoppingService.AddToCart]
    by_cases hGuard : customerId = "" ∨ product.id = ""
    · rw [if_pos hGuard]; exact hInv
    · rw [if_neg hGuard]
      cases publish with
      | error message => exact wellFormed_AddCartItem _ (Int.le_refl 1) hInv
      | ok u => exact wellFormed_AddCartItem _ (Int.le_refl 1) hInv
  | updateCartQuantity customerId productId quantity =>
    simp only [CartCall.run, ShoppingService.UpdateCartQuantity]
    by_cases hGuard : productId = "" ∨ quantity.truthy = false
    · rw [if_pos hGuard]; exact hInv
    · rw [if_neg hGuard]
      cases hParse : parseInt quantity with
      | none => exact hInv
      | some qty =>
        by_cases hLe : qty ≤ 0
        · simp only [hLe, if_true]; exact hInv
        · simp only [hLe, if_false]
          have hStep := wellFormed_UpdateCartItemQuantity customerId productId qty
            (by omega) hInv
          cases hRepo : ShoppingRepository.UpdateCartItemQuantity db customerId productId qty with
          | mk db1 result =>
            rw [hRepo] at hStep
            cases result <;> exact hStep
  | removeFromCart customerId productId =>
    simp only [CartCall.run, ShoppingService.RemoveFromCart]
    by_cases hGuard : productId = ""
    · rw [if_pos hGuard]; exact hInv
    · rw [if_neg hGuard]
      have hStep := wellFormed_RemoveCartItem customerId productId hInv
      cases hRepo : ShoppingRepository.RemoveCartItem db customerId productId with
      | mk db1 result =>
        rw [hRepo] at hStep
        cases result <;> exact hStep
  | clearCart customerId =>
    simp only [CartCall.run, ShoppingService.ClearCart]
    by_cases hGuard : customerId = ""
    · rw [if_pos hGuard]; exact hInv
    · rw [if_neg hGuard]
      exact wellFormed_ClearCart customerId hInv

theorem wellFormed_runCalls (calls : List CartCall) :
    ∀ db : Database,
      ((∀ cart ∈ db.carts, cart.WellFormed) ∧ (db.carts.map (fun c => c.customerId)).Nodup) →
      (∀ cart ∈ (runCalls db calls).carts, cart.WellFormed) ∧
        ((runCalls db calls).carts.map (fun c => c.customerId)).Nodup := by
  induction calls with
  | nil => intro db hInv; exact hInv
  | cons call rest ih =>
    intro db hInv
    exact ih (call.run db) (wellFormed_run db call hInv)

/-- C10: starting from the empty store, after any sequence of `AddToCart`,
`UpdateCartQuantity`, `RemoveFromCart` and `ClearCart` calls, returning or
throwing, every stored cart has no two lines with the same product id and
only lines of quantity at least 1, and every customer has at most one cart. -/
theorem C10_carts_stay_well_formed (calls : List CartCall) :
    (∀ cart ∈ (runCalls emptyDatabase calls).carts,
        (cart.items.map (fun item => item.productId)).Nodup ∧
          ∀ item ∈ cart.items, 1 ≤ item.quantity) ∧
      ((runCalls emptyDatabase calls).carts.map (fun c => c.customerId)).Nodup :=
  wellFormed_runCalls calls emptyDatabase
    ⟨fun cart hMem => by simp [emptyDatabase] at hMem, by simp [emptyDatabase]⟩

/-! ## Adding to an existing line -/

/-- C11 (what the code does): when the customer's cart has a line with the
product id of the call, `AddCartItem` returns a cart in which the first such
line has the quantity of the call added and keeps its stored name, price and
image whatever the call carries, with the lines before and after it unchanged
and in order; both tables are returned as they were, so the stored line keeps
its old quantity: the quantity is added inside the array the instance holds
and that array is what `cart.update` is given. -/
theorem C11_AddCartItem_returns_without_storing (db : Database) (cartItem : CartItemInput)
    (cart : Cart) (hCart : Cart.findOne db.carts cartItem.customerId = some cart)
    (hLine : ∃ item ∈ cart.items, item.productId = cartItem.productId) :
    ∃ before line after,
      cart.items = before ++ line :: after ∧
      (∀ item ∈ before, item.productId ≠ cartItem.productId) ∧
      line.productId = cartItem.productId ∧
      ShoppingRepository.AddCartItem db cartItem
        = (db, { cart with items := before ++
              { productId := line.productId, name := line.name, price := line.price,
                quantity := line.quantity + cartItem.quantity, image := line.image } ::
                after }) := by
  cases hIdx : findIndex (fun item : CartItem => item.productId == cartItem.productId)
      cart.items with
  | none =>
    obtain ⟨item, hMem, hEq⟩ := hLine
    have := findIndex_eq_none.mp hIdx item hMem
    simp [hEq] at this
  | some i =>
    obtain ⟨before, line, after, hSplit, hBefore, hAt, hLen⟩ := findIndex_eq_some hIdx
    refine ⟨before, line, after, hSplit, fun item hItem => by simpa using hBefore item hItem,
      by simpa using hAt, ?_⟩
    have hItems : modifyQuantityAt (fun q => q + cartItem.quantity) i cart.items
        = before ++ { line with quantity := line.quantity + cartItem.quantity } :: after := by
      rw [← hLen, hSplit]
      exact modifyQuantityAt_append _ _ _ _
    simp only [ShoppingRepository.AddCartItem, hCart, hIdx, hItems, Cart.updateWithHeldArray]

/-- C11 (the code at a stored line): customer `c1` adds 3 of `p1` with another
name, price and image.  The returned cart shows `Pen`, price 10, no image and
quantity 5 with the line for `p2` behind it; the store is the sample store
still, and the cart read afterwards shows `p1` at quantity 2.  A line for a
new product `p3` is likewise returned but not stored. -/
theorem C11_AddCartItem_returns_without_storing_witness :
    (∃ before line after,
      sampleItems = before ++ line :: after ∧
      (∀ item ∈ before, item.productId ≠ "p1") ∧
      line.productId = "p1" ∧
      ShoppingRepository.AddCartItem sampleDatabase
          { customerId := "c1", productId := "p1", name := "Quill", price := 99,
            quantity := 3, image := some "quill.png" }
        = (sampleDatabase,
           { customerId := "c1",
             items := before ++
               { productId := line.productId, name := line.name, price := line.price,
                 quantity := line.quantity + 3, image := line.image } :: after })) ∧
    ShoppingRepository.AddCartItem sampleDatabase
        { customerId := "c1", productId := "p1", name := "Quill", price := 99,
          quantity := 3, image := some "quill.png" }
      = (sampleDatabase,
         { customerId := "c1",
           items := [{ productId := "p1", name := "Pen", price := 10, quantity := 5,
                       image := none },
                     { productId := "p2", name := "Ink", price := 5, quantity := 1,
                       image := none }] }) ∧
    ShoppingRepository.Cart
        (ShoppingRepository.AddCartItem sampleDatabase
          { customerId := "c1", productId := "p1", name := "Quill", price := 99,
            quantity := 3, image := some "quill.png" }).1 "c1"
      = sampleItems ∧
    (ShoppingRepository.AddCartItem sampleDatabase
        { customerId := "c1", productId := "p3", name := "Quill", price := 99,
          quantity := 1, image := none }).1
      = sampleDatabase :=
  ⟨C11_AddCartItem_returns_without_storing sampleDatabase
      { customerId := "c1", productId := "p1", name := "Quill", price := 99,
        quantity := 3, image := some "quill.png" }
      { customerId := "c1", items := sampleItems } (by decide)
      ⟨{ productId := "p1", name := "Pen", price := 10, quantity := 2, image := none },
        by simp [sampleItems], rfl⟩,
    by with_unfolding_all decide, by with_unfolding_all decide, by with_unfolding_all decide⟩

/-! ## Removing and clearing twice -/

/-- Writing a row's items twice leaves what the second write stored. -/
theorem Cart.update_update (customerId : String) (first second : List CartItem)
    (carts : List Cart) :
    Cart.update customerId second (Cart.update customerId first carts)
      = Cart.update customerId second carts := by
  induction carts with
  | nil => rfl
  | cons c cs ih =>
    by_cases hc : c.customerId = customerId
    · simp [Cart.update, hc]
    · simp [Cart.update, hc, ih]

/-- C12: `RemoveCartItem` applied a second time with the same customer and
product id leaves the store, and returns the cart, that the first application
produced; `ClearCart` applied a second time leaves the store the first
application produced and returns the same empty cart. -/
theorem C12_remove_and_clear_idempotent (db : Database) (customerId productId : String) :
    ShoppingRepository.RemoveCartItem
        (ShoppingRepository.RemoveCartItem db customerId productId).1 customerId productId
      = ShoppingRepository.RemoveCartItem db customerId productId ∧
    ShoppingRepository.ClearCart (ShoppingRepository.ClearCart db customerId).1 customerId
      = ShoppingRepository.ClearCart db customerId ∧
    (ShoppingRepository.ClearCart db customerId).2 = [] := by
  cases hCart : Cart.findOne db.carts customerId with
  | none =>
    simp [ShoppingRepository.RemoveCartItem, ShoppingRepository.ClearCart, hCart]
  | some cart =>
    refine ⟨?_, ?_, ?_⟩
    · have hAgain := Cart.findOne_update hCart
        (cart.items.filter (fun item => item.productId != productId))
      simp only [ShoppingRepository.RemoveCartItem, hCart, hAgain, List.filter_filter,
        Bool.and_self, Cart.update_update]
    · have hAgain := Cart.findOne_update hCart []
      simp only [ShoppingRepository.ClearCart, hCart, hAgain, Cart.update_update]
    · simp [ShoppingRepository.ClearCart, hCart]

end OrderService
